import Mathlib

/-!
Verification of the twingate-caddy plugin core against its specification.

The Go source is shallowly embedded: Go strings become `List Char`,
Go pointers to strings become `Option`, Go maps iterated in insertion
order become lists, and the GraphQL client is modelled by explicit
oracles (`ClientBehavior`) so that the engine's remote calls appear as
explicit call traces.  Fallible remote calls return `Except Unit`.
-/

namespace Twingate

/-- Go strings are modelled as lists of characters. -/
abbrev Str := List Char

/-- Go strings.HasSuffix. -/
def hasSuffix (s suffix : Str) : Bool := suffix.isSuffixOf s

/-- Go strings.TrimSuffix: removes one copy of the suffix when present. -/
def trimSuffix (s suffix : Str) : Str :=
  if hasSuffix s suffix then s.take (s.length - suffix.length) else s

/-- Go strings.Contains for a single-character needle. -/
def strContains (s : Str) (c : Char) : Bool := s.contains c

/-- RemoteNetwork from types.go: `{ID, Name string}`. -/
structure RemoteNetwork where
  ID : Str
  Name : Str
deriving DecidableEq

/-- Resource from types.go.  The nested `Address struct { Value string }`
is flattened into the single field `AddressValue`; `RemoteNetwork.ID`
becomes `RemoteNetworkID`.  `Alias *string` becomes `Option Str`. -/
structure Resource where
  ID : Str
  Name : Str
  AddressValue : Str
  Alias : Option Str
  RemoteNetworkID : Str
deriving DecidableEq

/-- ResourceMapping from types.go: `{Name string, Alias *string, Address string}`. -/
structure ResourceMapping where
  Name : Str
  Alias : Option Str
  Address : Str
deriving DecidableEq

/-- ResourceCreateInput from types.go.  In Go `Alias` is a plain string
whose zero value (empty) encodes absence. -/
structure ResourceCreateInput where
  Name : Str
  Address : Str
  RemoteNetworkID : Str
  Alias : Str
deriving DecidableEq

/-- ResourceUpdateInput from types.go: the three mutable fields are
pointers (`Option`) in Go. -/
structure ResourceUpdateInput where
  ID : Str
  Name : Option Str
  Address : Option Str
  Alias : Option Str
deriving DecidableEq

/-- CleanupConfig from twingate.go: `{Enabled bool, DryRun bool}`. -/
structure CleanupConfig where
  Enabled : Bool
  DryRun : Bool
deriving DecidableEq

/-- Endpoint from route_discoverer.go: a discovered (host, path) pair. -/
structure Endpoint where
  Host : Str
  Path : Str
deriving DecidableEq

/-- Endpoint.CanonicalKey: `e.Host + "\x00" + e.Path`. -/
def CanonicalKey (e : Endpoint) : Str := e.Host ++ [Char.ofNat 0] ++ e.Path

/-- Endpoint.ResourceName: consolidates all paths on a host into one
resource, returning only the hostname. -/
def ResourceName (e : Endpoint) : Str := e.Host

/-- Endpoint.ResourceAlias: nil for wildcard hosts, otherwise the hostname. -/
def ResourceAlias (e : Endpoint) : Option Str :=
  if strContains e.Host '*' then none else some e.Host

/-- Endpoint.ToResourceMapping. -/
def ToResourceMapping (e : Endpoint) (caddyAddress : Str) : ResourceMapping :=
  { Name := ResourceName e, Alias := ResourceAlias e, Address := caddyAddress }

/-- RouteContext from route_discoverer.go. -/
structure RouteContext where
  Hosts : List Str
  Path : Str
deriving DecidableEq

/-- normalizePath from route_discoverer.go: strip one trailing `*`; if the
result is non-empty, not `/`, and lacks a trailing `/`, append `/`; map a
bare `/` to the empty string. -/
def normalizePath (path : Str) : Str :=
  let path := trimSuffix path ("*".data)
  let path :=
    if path ≠ [] ∧ path ≠ "/".data ∧ ¬ hasSuffix path ("/".data) then path ++ "/".data
    else path
  if path = "/".data then [] else path

/-- A matcher inside a matcher set: caddyhttp.MatchHost is a list of host
strings, caddyhttp.MatchPath a list of path patterns.  Other matcher
types are ignored by mergeMatchers, so they are not represented. -/
inductive Matcher where
  | matchHost (hosts : List Str)
  | matchPath (paths : List Str)
deriving DecidableEq

mutual
/-- A pre-decoded handler, as dispatched by traverseHandler: a
reverse-proxy leaf, a subroute holding nested routes, or any other
handler type (skipped by the default case of the type switch). -/
inductive Handler where
  | reverseProxy
  | subroute (routes : List Route)
  | otherHandler
/-- A raw (JSON) handler, as dispatched by traverseHandlerRaw after
unmarshalling into a key-tagged map: tag `reverse_proxy`, tag `subroute`
whose `routes` key holds JSON route values, some other tag, a map
without a string `handler` key, or JSON that failed to unmarshal. -/
inductive RawHandler where
  | rawReverseProxy
  | rawSubroute (routes : List RawRoute)
  | rawOtherTag (tag : Str)
  | rawNoTag
  | rawUndecodable
/-- A JSON route value inside a raw subroute's `routes` key: its `match`
key (matcher sets) and its `handle` key (handlers, themselves raw), or a
value that json.Unmarshal cannot decode into a route.  Unmarshalling it
into caddyhttp.Route fills only MatcherSetsRaw and HandlersRaw; the
decoded MatcherSets and Handlers fields are tagged with a JSON dash and
stay empty. -/
inductive RawRoute where
  | mk (matcherSetsRaw : List (List Matcher)) (handlersRaw : List RawHandler)
  | rawRouteUndecodable
/-- caddyhttp.Route as used by the discoverer: decoded matcher sets plus
the decoded `Handlers` slice and the raw `HandlersRaw` slice. -/
inductive Route where
  | mk (matcherSets : List (List Matcher)) (handlers : List Handler)
      (handlersRaw : List RawHandler)
end

/-- Matcher sets of a route. -/
def Route.matcherSets : Route → List (List Matcher)
  | .mk ms _ _ => ms

/-- Decoded handlers of a route. -/
def Route.handlers : Route → List Handler
  | .mk _ hs _ => hs

/-- Raw handlers of a route. -/
def Route.handlersRaw : Route → List RawHandler
  | .mk _ _ rs => rs

/-- mergeMatchers from route_discoverer.go, applied to a route's matcher
sets: a host matcher replaces the inherited hosts; a non-empty path
matcher replaces the inherited path with its first pattern, normalized. -/
def mergeMatchers (matcherSets : List (List Matcher)) (parentCtx : RouteContext) :
    RouteContext :=
  matcherSets.foldl (fun ctx matcherSet =>
    matcherSet.foldl (fun ctx m =>
      match m with
      | .matchHost hosts => { ctx with Hosts := hosts }
      | .matchPath paths =>
        match paths with
        | [] => ctx
        | p :: _ => { ctx with Path := normalizePath p }) ctx) parentCtx

/-- The endpoint map `map[string]Endpoint` keyed by CanonicalKey,
modelled as an insertion-ordered list: an endpoint is appended only when
no entry with the same canonical key is present. -/
abbrev EndpointMap := List Endpoint

/-- emitEndpoints from route_discoverer.go: default to host `localhost`
when the context has no hosts, then insert one endpoint per host unless
its canonical key is already present. -/
def emitEndpoints (ctx : RouteContext) (m : EndpointMap) : EndpointMap :=
  let hosts := if ctx.Hosts.isEmpty then ["localhost".data] else ctx.Hosts
  hosts.foldl (fun acc host =>
    let ep : Endpoint := { Host := host, Path := ctx.Path }
    if acc.any (fun e => CanonicalKey e == CanonicalKey ep) then acc
    else acc ++ [ep]) m

mutual
/-- traverseRoute from route_discoverer.go: merge this route's matchers
into the inherited context, traverse the decoded handlers, and traverse
the raw handlers only when there are no decoded handlers and at least
one raw handler. -/
def traverseRoute (r : Route) (parentCtx : RouteContext) (m : EndpointMap) :
    EndpointMap :=
  match r with
  | .mk msets handlers raws =>
    let ctx := mergeMatchers msets parentCtx
    let m2 := traverseHandlers handlers ctx m
    if handlers.isEmpty && !raws.isEmpty then traverseRawHandlers raws ctx m2 else m2
/-- The `for _, handler := range route.Handlers` loop of traverseRoute. -/
def traverseHandlers (hs : List Handler) (ctx : RouteContext) (m : EndpointMap) :
    EndpointMap :=
  match hs with
  | [] => m
  | h :: rest => traverseHandlers rest ctx (traverseHandler h ctx m)
/-- traverseHandler from route_discoverer.go: type switch over the three
handler kinds. -/
def traverseHandler (h : Handler) (ctx : RouteContext) (m : EndpointMap) :
    EndpointMap :=
  match h with
  | .reverseProxy => emitEndpoints ctx m
  | .subroute routes => traverseRoutes routes ctx m
  | .otherHandler => m
/-- The `for _, route := range h.Routes` loop of the subroute cases. -/
def traverseRoutes (rs : List Route) (ctx : RouteContext) (m : EndpointMap) :
    EndpointMap :=
  match rs with
  | [] => m
  | r :: rest => traverseRoutes rest ctx (traverseRoute r ctx m)
/-- The `for _, handlerRaw := range route.HandlersRaw` loop of traverseRoute. -/
def traverseRawHandlers (hs : List RawHandler) (ctx : RouteContext) (m : EndpointMap) :
    EndpointMap :=
  match hs with
  | [] => m
  | h :: rest => traverseRawHandlers rest ctx (traverseHandlerRaw h ctx m)
/-- traverseHandlerRaw from route_discoverer.go: switch on the `handler`
tag of the unmarshalled map; `reverse_proxy` emits, `subroute` marshals
each entry of its `routes` key back to JSON, unmarshals it into a route
and traverses it, anything else (another tag, a missing tag, or
undecodable JSON) is skipped. -/
def traverseHandlerRaw (h : RawHandler) (ctx : RouteContext) (m : EndpointMap) :
    EndpointMap :=
  match h with
  | .rawReverseProxy => emitEndpoints ctx m
  | .rawSubroute routes => traverseRawRoutes routes ctx m
  | .rawOtherTag _ => m
  | .rawNoTag => m
  | .rawUndecodable => m
/-- The `for _, routeAny := range routes` loop of the raw subroute case. -/
def traverseRawRoutes (rs : List RawRoute) (ctx : RouteContext) (m : EndpointMap) :
    EndpointMap :=
  match rs with
  | [] => m
  | r :: rest => traverseRawRoutes rest ctx (traverseRawRoute r ctx m)
/-- traverseRoute applied to the caddyhttp.Route obtained by
json.Unmarshal of one JSON route value (a failed unmarshal skips the
route).  Because MatcherSets and Handlers carry a JSON dash tag, the
decoded route is `.mk [] [] handlersRaw`: traverseRoute on it leaves the
context unchanged (mergeMatchers reads only the empty decoded matcher
sets, so the JSON `match` key is dropped), traverses no decoded
handlers, and runs the raw-handler loop when `handlersRaw` is non-empty.
The theorem traverseRawRoute_eq_decode proves this equal to traverseRoute
of the decoded route. -/
def traverseRawRoute (r : RawRoute) (ctx : RouteContext) (m : EndpointMap) :
    EndpointMap :=
  match r with
  | .mk _matcherSetsRaw handlersRaw =>
    if !handlersRaw.isEmpty then traverseRawHandlers handlersRaw ctx m else m
  | .rawRouteUndecodable => m
end

/-- The caddyhttp.Route produced by json.Unmarshal of a JSON route
value: only the raw fields are populated, the decoded matcher sets and
handlers (JSON dash tag) stay empty; an undecodable value yields none. -/
def decodeRawRoute : RawRoute → Option Route
  | .mk _matcherSetsRaw handlersRaw => some (.mk [] [] handlersRaw)
  | .rawRouteUndecodable => none

/-- The per-server loop of DiscoverEndpoints: the initial context uses
the server name as an implicit host unless it is empty or `srv0`, then
every route of the server is traversed.  `httpApp.Servers` is modelled
as an ordered list of (name, routes) pairs. -/
def collectEndpoints (servers : List (Str × List Route)) : EndpointMap :=
  servers.foldl (fun m server =>
    let ctx : RouteContext :=
      { Hosts := if server.1 ≠ [] ∧ server.1 ≠ "srv0".data then [server.1] else [],
        Path := [] }
    traverseRoutes server.2 ctx m) []

/-- The host-consolidation loop of DiscoverEndpoints: walk the
discovered endpoints and keep one entry per host, with an empty path. -/
def consolidateByHost : List Endpoint → List Endpoint → List Endpoint
  | [], acc => acc
  | ep :: rest, acc =>
    if acc.any (fun e => e.Host == ep.Host) then consolidateByHost rest acc
    else consolidateByHost rest (acc ++ [{ Host := ep.Host, Path := [] }])

/-- DiscoverEndpoints from route_discoverer.go: traverse every server's
routes into the canonical-key endpoint map, then deduplicate by host. -/
def DiscoverEndpoints (servers : List (Str × List Route)) : List Endpoint :=
  consolidateByHost (collectEndpoints servers) []

/-- GetRemoteNetworks from graphql_client.go: a single query with
`first: 100`; the server answers with the first page of at most 100
networks and the client copies the edge nodes.  `allNetworks` is the
full remote inventory. -/
def GetRemoteNetworks (allNetworks : List RemoteNetwork) : List RemoteNetwork :=
  (allNetworks.take 100).map (fun edge => edge)

/-- GetResources from graphql_client.go: a single query with
`first: 100` over all resources of the tenant, then a client-side filter
keeping resources of the requested network (or all of them when the
requested network id is empty). -/
def GetResources (allResources : List Resource) (remoteNetworkID : Str) :
    List Resource :=
  (allResources.take 100).filter
    (fun r => remoteNetworkID == [] || r.RemoteNetworkID == remoteNetworkID)

/-- DefaultRemoteNetworkName from sync.go. -/
def DefaultRemoteNetworkName : Str := "Caddy-Managed".data

/-- Decimal value of a digit string. -/
def digitsVal (s : Str) : Nat :=
  s.foldl (fun n c => n * 10 + (c.toNat - 48)) 0

/-- One dotted-decimal IPv4 field as accepted by Go's net.ParseIP: one to
three digits, no leading zero unless the field is exactly `0`, and a
value of at most 255. -/
def octetOk (s : Str) : Bool :=
  !s.isEmpty && s.length ≤ 3 && s.all Char.isDigit &&
    (s.length == 1 || s.head? != some '0') && digitsVal s ≤ 255

/-- Go's `net.ParseIP` followed by the `To4() != nil` check, for the
dotted-decimal form: four `.`-separated octets.  Strings that are not in
this form (including IPv6 literals, which contain `:`) fail the check. -/
def isIPv4 (s : Str) : Bool :=
  let parts := s.splitOn '.'
  parts.length == 4 && parts.all octetOk

/-- validateMapping from sync.go: non-empty name, non-empty address, and
the address must be an IPv4 literal (IPv6 is rejected). -/
def validateMapping (m : ResourceMapping) : Bool :=
  !m.Name.isEmpty && !m.Address.isEmpty && isIPv4 m.Address

/-- The existing-resource lookup of syncSingleResource: with an alias,
GetResourceByAlias returns the first listed resource whose alias is
present and equal; without one, the first listed resource with the same
name.  `resources` is the listing returned for the target network. -/
def lookupExisting (resources : List Resource) (m : ResourceMapping) :
    Option Resource :=
  match m.Alias with
  | some a => resources.find? (fun r => r.Alias == some a)
  | none => resources.find? (fun r => r.Name == m.Name)

/-- updateExistingResource from sync.go, as the update call it issues:
start from the existing values, replace each field that differs from the
desired mapping (aliases are compared after defaulting an absent alias
to the empty string), and return `none` when nothing differed. -/
def updateExistingResource (mapping : ResourceMapping) (existing : Resource) :
    Option ResourceUpdateInput :=
  let input0 : ResourceUpdateInput :=
    { ID := existing.ID, Name := some existing.Name,
      Address := some existing.AddressValue, Alias := existing.Alias }
  let step1 :=
    if existing.Name ≠ mapping.Name then (true, { input0 with Name := some mapping.Name })
    else (false, input0)
  let step2 :=
    if existing.AddressValue ≠ mapping.Address then
      (true, { step1.2 with Address := some mapping.Address })
    else step1
  let currentAlias := existing.Alias.getD []
  let desiredAlias := mapping.Alias.getD []
  let step3 :=
    if currentAlias ≠ desiredAlias then (true, { step2.2 with Alias := mapping.Alias })
    else step2
  if step3.1 then some step3.2 else none

/-- The ResourceCreateInput built by createNewResource: name, address and
network id from the mapping, alias only when the mapping has one (the Go
zero value, the empty string, encodes absence). -/
def createResourceInput (m : ResourceMapping) (remoteNetworkID : Str) :
    ResourceCreateInput :=
  { Name := m.Name, Address := m.Address, RemoteNetworkID := remoteNetworkID,
    Alias := m.Alias.getD [] }

/-- A remote call issued by the engine: the fatal network-resolution
call, the summary's network query, and the three mutations.  Read-only
resource listings are queries, not mutations, and are not traced. -/
inductive ClientCall where
  | getOrCreateNetwork (name : Str)
  | getNetworkByName (name : Str)
  | createRes (input : ResourceCreateInput)
  | updateRes (input : ResourceUpdateInput)
  | deleteRes (id : Str)
deriving DecidableEq

/-- The remote side of one sync invocation: what each client call
returns.  `Except.error` models a transport failure or a server-reported
not-ok outcome (both are handled identically by the engine). -/
structure ClientBehavior where
  getOrCreateNetwork : Str → Except Unit RemoteNetwork
  getNetworkByName : Str → Except Unit (Option RemoteNetwork)
  listResources : Str → Except Unit (List Resource)
  createOk : ResourceCreateInput → Bool
  updateOk : ResourceUpdateInput → Bool
  deleteOk : Str → Bool

/-- syncSingleResource from sync.go: validate, list the network's
resources (both the alias and the name branch go through the resource
listing), look up an existing resource, then either update (when the
diff is non-empty) or create.  Returns whether the mapping errored and
the mutation calls issued. -/
def syncSingleResource (cb : ClientBehavior) (remoteNetworkID : Str)
    (m : ResourceMapping) : Bool × List ClientCall :=
  if !validateMapping m then (true, [])
  else
    match cb.listResources remoteNetworkID with
    | .error _ => (true, [])
    | .ok resources =>
      match lookupExisting resources m with
      | some existing =>
        match updateExistingResource m existing with
        | some u => (!cb.updateOk u, [.updateRes u])
        | none => (false, [])
      | none =>
        let input := createResourceInput m remoteNetworkID
        (!cb.createOk input, [.createRes input])

/-- Result of the upsert pass: success and error counts plus the
mutation calls issued, in order. -/
structure UpsertResult where
  success : Nat
  errors : Nat
  calls : List ClientCall
deriving DecidableEq

/-- upsertResources from sync.go: process every mapping independently,
counting successes and errors. -/
def upsertResources (cb : ClientBehavior) (remoteNetworkID : Str) :
    List ResourceMapping → UpsertResult
  | [] => { success := 0, errors := 0, calls := [] }
  | m :: rest =>
    let step := syncSingleResource cb remoteNetworkID m
    let res := upsertResources cb remoteNetworkID rest
    { success := (if step.1 then 0 else 1) + res.success,
      errors := (if step.1 then 1 else 0) + res.errors,
      calls := step.2 ++ res.calls }

/-- Result of the cleanup pass: deleted and error counts plus the delete
calls issued, in order. -/
structure CleanupResult where
  deleted : Nat
  errors : Nat
  calls : List ClientCall
deriving DecidableEq

/-- The `for _, resource := range staleResources` loop of
deleteStaleResources: in dry-run mode count the resource as deleted
without any call; otherwise issue the delete call and count its outcome. -/
def deleteLoop (cfg : CleanupConfig) (deleteOk : Str → Bool) :
    List Resource → CleanupResult
  | [] => { deleted := 0, errors := 0, calls := [] }
  | r :: rest =>
    let res := deleteLoop cfg deleteOk rest
    if cfg.DryRun then { res with deleted := res.deleted + 1 }
    else if deleteOk r.ID then
      { deleted := res.deleted + 1, errors := res.errors,
        calls := .deleteRes r.ID :: res.calls }
    else
      { deleted := res.deleted, errors := res.errors + 1,
        calls := .deleteRes r.ID :: res.calls }

/-- The stale-set computation of deleteStaleResources: listed resources
whose name is not among the desired mapping names. -/
def staleOf (existingResources : List Resource)
    (desiredMappings : List ResourceMapping) : List Resource :=
  let desiredNames := desiredMappings.map (fun m => m.Name)
  existingResources.filter (fun r => !(desiredNames.any (fun n => n == r.Name)))

/-- deleteStaleResources from sync.go: if the resource listing fails,
report one error and stop; otherwise compute the stale set, return zero
counts when it is empty, and otherwise run the deletion loop.
`listResult` is the value returned by the client's resource listing. -/
def deleteStaleResources (listResult : Except Unit (List Resource))
    (desiredMappings : List ResourceMapping) (cfg : CleanupConfig)
    (deleteOk : Str → Bool) : CleanupResult :=
  match listResult with
  | .error _ => { deleted := 0, errors := 1, calls := [] }
  | .ok existingResources =>
    let staleResources := staleOf existingResources desiredMappings
    if staleResources.isEmpty then { deleted := 0, errors := 0, calls := [] }
    else deleteLoop cfg deleteOk staleResources

/-- SyncResources from sync.go: empty mappings are a no-op; otherwise an
empty network name is replaced by the default, the network is resolved
or created (failure there is fatal), the upsert pass runs, then the
cleanup pass when enabled, and an error is reported iff the total error
count is positive.  Returns (errored?, trace of resolution and mutation
calls). -/
def SyncResources (cb : ClientBehavior) (mappings : List ResourceMapping)
    (remoteNetworkName : Str) (cleanupConfig : Option CleanupConfig) :
    Bool × List ClientCall :=
  if mappings.isEmpty then (false, [])
  else
    let networkName :=
      if remoteNetworkName = [] then DefaultRemoteNetworkName else remoteNetworkName
    match cb.getOrCreateNetwork networkName with
    | .error _ => (true, [.getOrCreateNetwork networkName])
    | .ok network =>
      let upsert := upsertResources cb network.ID mappings
      let cleanup :=
        match cleanupConfig with
        | some cfg =>
          if cfg.Enabled then
            deleteStaleResources (cb.listResources network.ID) mappings cfg cb.deleteOk
          else { deleted := 0, errors := 0, calls := [] }
        | none => { deleted := 0, errors := 0, calls := [] }
      (decide (upsert.errors + cleanup.errors > 0),
        .getOrCreateNetwork networkName :: (upsert.calls ++ cleanup.calls))

/-- SyncSummary from sync.go. -/
structure SyncSummary where
  TotalMappings : Nat
  RemoteNetworkAction : Str
  RemoteNetworkName : Str
  RemoteNetworkID : Str
  ResourcesToCreate : Nat
  ResourcesToUpdate : Nat
deriving DecidableEq

/-- GetSyncSummary from sync.go: empty mappings short-circuit; otherwise
an empty network name is replaced by the default and the network is
looked up by name (failure is fatal for the summary).  Each mapping is
classified as to-update when the existing-resource lookup finds a match
and to-create otherwise; a failed listing skips the mapping.  Returns
the summary (or failure) and the trace of network queries. -/
def GetSyncSummary (cb : ClientBehavior) (mappings : List ResourceMapping)
    (remoteNetworkName : Str) : Except Unit SyncSummary × List ClientCall :=
  if mappings.isEmpty then
    (.ok { TotalMappings := mappings.length, RemoteNetworkAction := [],
           RemoteNetworkName := [], RemoteNetworkID := [],
           ResourcesToCreate := 0, ResourcesToUpdate := 0 }, [])
  else
    let networkName :=
      if remoteNetworkName = [] then DefaultRemoteNetworkName else remoteNetworkName
    match cb.getNetworkByName networkName with
    | .error _ => (.error (), [.getNetworkByName networkName])
    | .ok networkOpt =>
      let counts := mappings.foldl (fun acc m =>
        match networkOpt with
        | some network =>
          match cb.listResources network.ID with
          | .error _ => acc
          | .ok resources =>
            match lookupExisting resources m with
            | some _ => (acc.1, acc.2 + 1)
            | none => (acc.1 + 1, acc.2)
        | none => (acc.1 + 1, acc.2)) ((0 : Nat), (0 : Nat))
      let summary : SyncSummary :=
        match networkOpt with
        | some network =>
          { TotalMappings := mappings.length, RemoteNetworkAction := "use_existing".data,
            RemoteNetworkName := network.Name, RemoteNetworkID := network.ID,
            ResourcesToCreate := counts.1, ResourcesToUpdate := counts.2 }
        | none =>
          { TotalMappings := mappings.length, RemoteNetworkAction := "create".data,
            RemoteNetworkName := networkName, RemoteNetworkID := [],
            ResourcesToCreate := counts.1, ResourcesToUpdate := counts.2 }
      (.ok summary, [.getNetworkByName networkName])

/-- Modelled from the spec sentence on path normalization, for comparison
with `normalizePath`: strip a trailing wildcard character; if the result
is non-empty and not already `/`, ensure it ends with `/`; collapse a
bare `/` to the empty string. -/
def normalizePathSpec (path : Str) : Str :=
  let stripped := trimSuffix path ("*".data)
  let ensured :=
    if stripped ≠ [] ∧ stripped ≠ "/".data ∧ ¬ hasSuffix stripped ("/".data) then
      stripped ++ "/".data
    else stripped
  if ensured = "/".data then [] else ensured

/-- The three handler kinds of the spec: proxy leaf, nested subroute,
and skipped (any other handler). -/
inductive HandlerKind where
  | leaf
  | nested
  | skipped
deriving DecidableEq

/-- Classification of a pre-decoded handler by traverseHandler's type
switch. -/
def handlerKind : Handler → HandlerKind
  | .reverseProxy => .leaf
  | .subroute _ => .nested
  | .otherHandler => .skipped

/-- Classification of a raw handler by traverseHandlerRaw's tag switch. -/
def rawHandlerKind : RawHandler → HandlerKind
  | .rawReverseProxy => .leaf
  | .rawSubroute _ => .nested
  | .rawOtherTag _ => .skipped
  | .rawNoTag => .skipped
  | .rawUndecodable => .skipped

mutual
/-- The JSON (key-tagged map) form of a pre-decoded handler, i.e. the
configuration text both representations come from: tag `reverse_proxy`
for the proxy leaf, tag `subroute` whose `routes` key holds the nested
routes as JSON values, and some other tag for the remaining handler
types. -/
def encodeHandler : Handler → RawHandler
  | .reverseProxy => .rawReverseProxy
  | .subroute routes => .rawSubroute (encodeRoutesRaw routes)
  | .otherHandler => .rawOtherTag ("file_server".data)
/-- Pointwise JSON encoding of a handler list. -/
def encodeHandlers : List Handler → List RawHandler
  | [] => []
  | h :: rest => encodeHandler h :: encodeHandlers rest
/-- The JSON route value for a pre-decoded route: the matcher sets
serialize under the `match` key and the handlers under the `handle` key. -/
def encodeRouteRaw : Route → RawRoute
  | .mk msets handlers _ => .mk msets (encodeHandlers handlers)
/-- Pointwise JSON encoding of a route list. -/
def encodeRoutesRaw : List Route → List RawRoute
  | [] => []
  | r :: rest => encodeRouteRaw r :: encodeRoutesRaw rest
end

/-- A remote inventory of `n` distinctly named networks. -/
def networkInventory (n : Nat) : List RemoteNetwork :=
  (List.range n).map (fun i => { ID := (toString i).data, Name := (toString i).data })

/-- A remote inventory of `n` distinctly named resources, all in network
`net1`. -/
def resourceInventory (n : Nat) : List Resource :=
  (List.range n).map (fun i =>
    { ID := (toString i).data, Name := (toString i).data,
      AddressValue := "10.0.0.1".data, Alias := none,
      RemoteNetworkID := "net1".data })

/-- Counterexample mapping: desired state with an absent alias. -/
def diffAliasMapping : ResourceMapping :=
  { Name := "app".data, Alias := none, Address := "10.0.0.1".data }

/-- Counterexample resource: same name and address, but a present (empty)
alias, so the alias fields differ as optional values. -/
def diffAliasExisting : Resource :=
  { ID := "r1".data, Name := "app".data, AddressValue := "10.0.0.1".data,
    Alias := some [], RemoteNetworkID := "net1".data }

/-- A remote resource that already matches `wMapping` exactly. -/
def wResource : Resource :=
  { ID := "r1".data, Name := "app.example.com".data,
    AddressValue := "10.0.0.1".data, Alias := some ("app.example.com".data),
    RemoteNetworkID := "net1".data }

/-- A desired mapping matched exactly by `wResource`. -/
def wMapping : ResourceMapping :=
  { Name := "app.example.com".data, Alias := some ("app.example.com".data),
    Address := "10.0.0.1".data }

/-- A client whose listing always returns exactly `wResource` and whose
mutations succeed. -/
def syncedBehavior : ClientBehavior :=
  { getOrCreateNetwork := fun name => .ok { ID := "net1".data, Name := name },
    getNetworkByName := fun _ => .ok none,
    listResources := fun _ => .ok [wResource],
    createOk := fun _ => true,
    updateOk := fun _ => true,
    deleteOk := fun _ => true }

/-- Three stale resources used to exercise the cleanup loop. -/
def exStale3 : List Resource :=
  [{ ID := "s1".data, Name := "old1".data, AddressValue := "10.0.0.1".data,
     Alias := none, RemoteNetworkID := "net1".data },
   { ID := "s2".data, Name := "old2".data, AddressValue := "10.0.0.1".data,
     Alias := none, RemoteNetworkID := "net1".data },
   { ID := "s3".data, Name := "old3".data, AddressValue := "10.0.0.1".data,
     Alias := none, RemoteNetworkID := "net1".data }]

/-- A delete oracle that fails exactly on resource `s2`. -/
def exDeleteOk (id : Str) : Bool := id != "s2".data

/-- A one-server routing tree in which host `api.example.com` is reached
through two different paths. -/
def exServers : List (Str × List Route) :=
  [("srv0".data,
    [Route.mk [[.matchHost ["api.example.com".data]], [.matchPath ["/v1/*".data]]]
      [.reverseProxy] [],
     Route.mk [[.matchHost ["api.example.com".data], .matchPath ["/v2/*".data]]]
      [.reverseProxy] []])]

/-- A pre-decoded subroute handler holding one proxy-leaf route guarded
by a host matcher. -/
def exHandler : Handler :=
  .subroute [Route.mk [[.matchHost ["a.example".data]]] [.reverseProxy] []]

/-- C7: normalizePath strips a trailing wildcard, then appends `/` to a
non-empty result other than `/` lacking one, and maps a bare `/` to the
empty string; with the five example inputs of the spec. -/
theorem normalizePath_matches_spec :
    (∀ p : Str, normalizePath p = normalizePathSpec p)
    ∧ normalizePath ("/api/*".data) = "/api/".data
    ∧ normalizePath ("/api".data) = "/api/".data
    ∧ normalizePath ("/".data) = "".data
    ∧ normalizePath ("/admin/*".data) = "/admin/".data
    ∧ normalizePath ("/*".data) = "".data :=
  ⟨fun _ => rfl, by decide, by decide, by decide, by decide, by decide⟩

/-- C8: ResourceAlias is absent exactly when the host contains the
wildcard character, and otherwise equals the host. -/
theorem ResourceAlias_wildcard_iff (e : Endpoint) :
    (ResourceAlias e = none ↔ strContains e.Host '*' = true)
    ∧ (strContains e.Host '*' = false → ResourceAlias e = some e.Host) := by
  cases h : strContains e.Host '*' <;> simp [ResourceAlias, h]

/-- Witness for C8 at a concrete wildcard-free host. -/
theorem ResourceAlias_wildcard_iff_witness :
    strContains ("api.example.com".data) '*' = false
    ∧ ResourceAlias { Host := "api.example.com".data, Path := [] } =
        some ("api.example.com".data) :=
  ⟨by decide, (ResourceAlias_wildcard_iff _).2 (by decide)⟩

/-- C3: with 101 networks (or 101 resources) in the remote inventory,
the single `first: 100` query of GetRemoteNetworks and GetResources
returns only 100 entries, so the listings do not exhaust pagination. -/
theorem listings_truncate_at_100 :
    (networkInventory 101).length = 101
    ∧ (GetRemoteNetworks (networkInventory 101)).length = 100
    ∧ (resourceInventory 101).length = 101
    ∧ (GetResources (resourceInventory 101) ("net1".data)).length = 100 := by
  refine ⟨by decide, by decide, by decide, by decide⟩

/-- The update is skipped exactly when name and address match and the
aliases agree after defaulting absence to the empty string. -/
theorem updateExistingResource_eq_none_iff (m : ResourceMapping) (r : Resource) :
    updateExistingResource m r = none ↔
      (r.Name = m.Name ∧ r.AddressValue = m.Address ∧
        r.Alias.getD [] = m.Alias.getD []) := by
  by_cases hn : r.Name = m.Name <;>
    by_cases ha : r.AddressValue = m.Address <;>
      by_cases hal : r.Alias.getD [] = m.Alias.getD [] <;>
        simp [updateExistingResource, hn, ha, hal]

/-- When some field differs, the issued update carries the existing value
for unchanged fields and the desired value for changed ones. -/
theorem updateExistingResource_eq_some (m : ResourceMapping) (r : Resource)
    (h : ¬ (r.Name = m.Name ∧ r.AddressValue = m.Address ∧
      r.Alias.getD [] = m.Alias.getD [])) :
    updateExistingResource m r = some
      { ID := r.ID,
        Name := some (if r.Name = m.Name then r.Name else m.Name),
        Address := some (if r.AddressValue = m.Address then r.AddressValue else m.Address),
        Alias := if r.Alias.getD [] = m.Alias.getD [] then r.Alias else m.Alias } := by
  by_cases hn : r.Name = m.Name <;>
    by_cases ha : r.AddressValue = m.Address <;>
      by_cases hal : r.Alias.getD [] = m.Alias.getD [] <;>
        simp_all [updateExistingResource, hn, ha, hal]

/-- When every mapping finds an existing resource that already matches it
(aliases compared after defaulting absence to the empty string), the
upsert pass issues no mutation calls. -/
theorem upsertResources_no_calls_when_synced (cb : ClientBehavior)
    (networkID : Str) (resources : List Resource)
    (mappings : List ResourceMapping)
    (hlist : cb.listResources networkID = .ok resources)
    (hsync : ∀ m ∈ mappings, ∃ r, lookupExisting resources m = some r ∧
      r.Name = m.Name ∧ r.AddressValue = m.Address ∧
      r.Alias.getD [] = m.Alias.getD []) :
    (upsertResources cb networkID mappings).calls = [] := by
  induction mappings with
  | nil => rfl
  | cons m rest ih =>
    obtain ⟨r, hfind, h1, h2, h3⟩ := hsync m (List.mem_cons_self m rest)
    have hrest := ih (fun m hm => hsync m (List.mem_cons_of_mem _ hm))
    by_cases hv : validateMapping m
    · have hupd : updateExistingResource m r = none :=
        (updateExistingResource_eq_none_iff m r).mpr ⟨h1, h2, h3⟩
      simp [upsertResources, syncSingleResource, hv, hlist, hfind, hupd, hrest]
    · simp [upsertResources, syncSingleResource, hv, hrest]

/-- C2 (counterexample): with a matching name and address, an existing
resource whose alias is present but empty, and a desired mapping with an
absent alias, the alias fields differ yet no update call is issued. -/
theorem updateExistingResource_empty_alias_cex :
    diffAliasExisting.Alias ≠ diffAliasMapping.Alias
    ∧ diffAliasExisting.Name = diffAliasMapping.Name
    ∧ diffAliasExisting.AddressValue = diffAliasMapping.Address
    ∧ updateExistingResource diffAliasMapping diffAliasExisting = none := by
  refine ⟨by decide, by decide, by decide, by decide⟩

/-- C2 (amended): updateExistingResource skips the remote call exactly
when name and address match and the aliases agree after defaulting an
absent alias to the empty string; otherwise it issues the single update
carrying all three current-or-changed values; and an upsert pass in
which every mapping finds a matching existing resource issues zero
create/update calls. -/
theorem updateExistingResource_minimal_diff :
    (∀ (m : ResourceMapping) (r : Resource),
      updateExistingResource m r = none ↔
        (r.Name = m.Name ∧ r.AddressValue = m.Address ∧
          r.Alias.getD [] = m.Alias.getD []))
    ∧ (∀ (m : ResourceMapping) (r : Resource),
      ¬ (r.Name = m.Name ∧ r.AddressValue = m.Address ∧
          r.Alias.getD [] = m.Alias.getD []) →
      updateExistingResource m r = some
        { ID := r.ID,
          Name := some (if r.Name = m.Name then r.Name else m.Name),
          Address := some (if r.AddressValue = m.Address then r.AddressValue
            else m.Address),
          Alias := if r.Alias.getD [] = m.Alias.getD [] then r.Alias
            else m.Alias })
    ∧ (∀ (cb : ClientBehavior) (networkID : Str) (resources : List Resource)
        (mappings : List ResourceMapping),
      cb.listResources networkID = .ok resources →
      (∀ m ∈ mappings, ∃ r, lookupExisting resources m = some r ∧
        r.Name = m.Name ∧ r.AddressValue = m.Address ∧
        r.Alias.getD [] = m.Alias.getD []) →
      (upsertResources cb networkID mappings).calls = []) :=
  ⟨updateExistingResource_eq_none_iff, updateExistingResource_eq_some,
    upsertResources_no_calls_when_synced⟩

/-- Witness for C2: a second sync of `wMapping` against a remote state
already holding the matching `wResource` issues no mutation calls. -/
theorem updateExistingResource_minimal_diff_witness :
    (upsertResources syncedBehavior ("net1".data) [wMapping]).calls = [] :=
  updateExistingResource_minimal_diff.2.2 syncedBehavior ("net1".data)
    [wResource] [wMapping] rfl
    (by
      intro m hm
      have hme : m = wMapping := by simpa using hm
      subst hme
      exact ⟨wResource, by decide, by decide, by decide, by decide⟩)

/-- In dry-run mode the deletion loop issues no calls, reports no errors,
and counts every stale resource as deleted. -/
theorem deleteLoop_dryRun (cfg : CleanupConfig) (deleteOk : Str → Bool)
    (h : cfg.DryRun = true) (l : List Resource) :
    deleteLoop cfg deleteOk l = { deleted := l.length, errors := 0, calls := [] } := by
  induction l with
  | nil => rfl
  | cons r rest ih => simp [deleteLoop, h, ih]

/-- Outside dry-run mode the deletion loop attempts every stale resource,
counting successes and failures independently. -/
theorem deleteLoop_attempts_all (cfg : CleanupConfig) (deleteOk : Str → Bool)
    (h : cfg.DryRun = false) (l : List Resource) :
    deleteLoop cfg deleteOk l =
      { deleted := (l.filter (fun r => deleteOk r.ID)).length,
        errors := (l.filter (fun r => !deleteOk r.ID)).length,
        calls := l.map (fun r => ClientCall.deleteRes r.ID) } := by
  induction l with
  | nil => rfl
  | cons r rest ih =>
    by_cases hd : deleteOk r.ID = true <;> simp [deleteLoop, h, ih, hd, List.filter]

/-- C4: when the listing succeeds and DryRun is set, deleteStaleResources
issues no delete call and reports a deleted count equal to the number of
stale resources. -/
theorem dryRun_deletes_nothing (existingResources : List Resource)
    (desiredMappings : List ResourceMapping) (cfg : CleanupConfig)
    (deleteOk : Str → Bool) (h : cfg.DryRun = true) :
    (deleteStaleResources (.ok existingResources) desiredMappings cfg deleteOk).calls = []
    ∧ (deleteStaleResources (.ok existingResources) desiredMappings cfg deleteOk).deleted
      = (staleOf existingResources desiredMappings).length := by
  unfold deleteStaleResources
  by_cases he : (staleOf existingResources desiredMappings).isEmpty = true
  · have hl : staleOf existingResources desiredMappings = [] := by
      simpa [List.isEmpty_iff] using he
    simp [he, hl]
  · simp [he, deleteLoop_dryRun cfg deleteOk h]

/-- Witness for C4: two stale resources, dry run, zero calls, count two. -/
theorem dryRun_deletes_nothing_witness :
    (deleteStaleResources (.ok exStale3) [] { Enabled := true, DryRun := true }
      exDeleteOk).calls = []
    ∧ (deleteStaleResources (.ok exStale3) [] { Enabled := true, DryRun := true }
      exDeleteOk).deleted = 3 := by
  have h := dryRun_deletes_nothing exStale3 [] { Enabled := true, DryRun := true }
    exDeleteOk rfl
  exact ⟨h.1, h.2.trans (by decide)⟩

/-- C5 (counterexample): a dry-run cleanup whose resource listing fails
reports one cleanup error, not zero. -/
theorem dryRun_listing_failure_cex :
    (deleteStaleResources (.error ()) [] { Enabled := true, DryRun := true }
      (fun _ => true)).errors = 1 := by decide

/-- C5 (amended): with DryRun set, a cleanup pass whose listing succeeds
reports zero errors and issues no calls, while a failed listing still
contributes exactly one error. -/
theorem dryRun_error_accounting (existingResources : List Resource)
    (desiredMappings : List ResourceMapping) (cfg : CleanupConfig)
    (deleteOk : Str → Bool) (h : cfg.DryRun = true) :
    (deleteStaleResources (.ok existingResources) desiredMappings cfg deleteOk).errors = 0
    ∧ (deleteStaleResources (.ok existingResources) desiredMappings cfg deleteOk).calls = []
    ∧ (deleteStaleResources (.error ()) desiredMappings cfg deleteOk).errors = 1 := by
  refine ⟨?_, (dryRun_deletes_nothing _ _ _ _ h).1, by simp [deleteStaleResources]⟩
  unfold deleteStaleResources
  by_cases he : (staleOf existingResources desiredMappings).isEmpty = true
  · simp [he]
  · simp [he, deleteLoop_dryRun cfg deleteOk h]

/-- Witness for C5 (amended) at a concrete stale set. -/
theorem dryRun_error_accounting_witness :
    (deleteStaleResources (.ok exStale3) [] { Enabled := true, DryRun := true }
      exDeleteOk).errors = 0
    ∧ (deleteStaleResources (.error ()) [] { Enabled := true, DryRun := true }
      exDeleteOk).errors = 1 := by
  have h := dryRun_error_accounting exStale3 [] { Enabled := true, DryRun := true }
    exDeleteOk rfl
  exact ⟨h.1, h.2.2⟩

/-- C6: outside dry-run mode every stale resource is attempted even when
some deletes fail, and the deleted/error counts tally the successful and
failed deletes independently. -/
theorem delete_failures_isolated (existingResources : List Resource)
    (desiredMappings : List ResourceMapping) (cfg : CleanupConfig)
    (deleteOk : Str → Bool) (h : cfg.DryRun = false) :
    (deleteStaleResources (.ok existingResources) desiredMappings cfg deleteOk).calls
      = (staleOf existingResources desiredMappings).map
          (fun r => ClientCall.deleteRes r.ID)
    ∧ (deleteStaleResources (.ok existingResources) desiredMappings cfg deleteOk).deleted
      = ((staleOf existingResources desiredMappings).filter
          (fun r => deleteOk r.ID)).length
    ∧ (deleteStaleResources (.ok existingResources) desiredMappings cfg deleteOk).errors
      = ((staleOf existingResources desiredMappings).filter
          (fun r => !deleteOk r.ID)).length := by
  unfold deleteStaleResources
  by_cases he : (staleOf existingResources desiredMappings).isEmpty = true
  · have hl : staleOf existingResources desiredMappings = [] := by
      simpa [List.isEmpty_iff] using he
    simp [he, hl]
  · simp [he, deleteLoop_attempts_all cfg deleteOk h]

/-- Witness for C6: of three stale resources with one failing delete, all
three are attempted and the result reports two deleted and one error. -/
theorem delete_failures_isolated_witness :
    (deleteStaleResources (.ok exStale3) [] { Enabled := true, DryRun := false }
      exDeleteOk).deleted = 2
    ∧ (deleteStaleResources (.ok exStale3) [] { Enabled := true, DryRun := false }
      exDeleteOk).errors = 1
    ∧ (deleteStaleResources (.ok exStale3) [] { Enabled := true, DryRun := false }
      exDeleteOk).calls.length = 3 := by
  have h := delete_failures_isolated exStale3 [] { Enabled := true, DryRun := false }
    exDeleteOk rfl
  refine ⟨h.2.1.trans (by decide), h.2.2.trans (by decide), ?_⟩
  rw [h.1]; decide

/-- C10: with a non-empty mapping list and an empty caller-supplied
network name, both SyncResources and GetSyncSummary resolve the network
under the default name `Caddy-Managed`, never under the empty name. -/
theorem empty_network_name_defaults (cb : ClientBehavior)
    (mappings : List ResourceMapping) (cleanupConfig : Option CleanupConfig)
    (h : mappings ≠ []) :
    (SyncResources cb mappings [] cleanupConfig).2.head?
      = some (.getOrCreateNetwork DefaultRemoteNetworkName)
    ∧ (GetSyncSummary cb mappings []).2
      = [.getNetworkByName DefaultRemoteNetworkName] := by
  have hne : mappings.isEmpty = false := by
    simpa [List.isEmpty_iff] using h
  constructor
  · unfold SyncResources
    simp only [hne, Bool.false_eq_true, if_false, if_pos rfl]
    cases hc : cb.getOrCreateNetwork DefaultRemoteNetworkName <;> simp [hc]
  · unfold GetSyncSummary
    simp only [hne, Bool.false_eq_true, if_false, if_pos rfl]
    cases hc : cb.getNetworkByName DefaultRemoteNetworkName <;> simp [hc]

/-- Witness for C10 at a concrete mapping list and client. -/
theorem empty_network_name_defaults_witness :
    (SyncResources syncedBehavior [wMapping] [] none).2.head?
      = some (.getOrCreateNetwork DefaultRemoteNetworkName)
    ∧ (GetSyncSummary syncedBehavior [wMapping] []).2
      = [.getNetworkByName DefaultRemoteNetworkName] :=
  empty_network_name_defaults syncedBehavior [wMapping] none (by decide)

/-- The consolidation loop preserves distinctness of the collected hosts. -/
theorem consolidateByHost_nodup (eps : List Endpoint) :
    ∀ acc : List Endpoint, (acc.map (fun e => e.Host)).Nodup →
      ((consolidateByHost eps acc).map (fun e => e.Host)).Nodup := by
  induction eps with
  | nil => intro acc h; simpa [consolidateByHost] using h
  | cons ep rest ih =>
    intro acc h
    by_cases hmem : acc.any (fun e => e.Host == ep.Host) = true
    · simpa [consolidateByHost, hmem] using ih acc h
    · have hni : ep.Host ∉ acc.map (fun e => e.Host) := by
        intro hx
        rcases List.mem_map.mp hx with ⟨e, he, heq⟩
        exact hmem (List.any_eq_true.mpr ⟨e, he, beq_iff_eq.mpr heq⟩)
      have hacc : ((acc ++ [(⟨ep.Host, []⟩ : Endpoint)]).map
          (fun e => e.Host)).Nodup := by
        simpa [List.nodup_append, h] using hni
      simpa [consolidateByHost, hmem] using
        ih (acc ++ [(⟨ep.Host, []⟩ : Endpoint)]) hacc

/-- Every entry produced by the consolidation loop carries an empty path. -/
theorem consolidateByHost_paths (eps : List Endpoint) :
    ∀ acc : List Endpoint, (∀ e ∈ acc, e.Path = []) →
      ∀ e ∈ consolidateByHost eps acc, e.Path = [] := by
  induction eps with
  | nil => intro acc h; simpa [consolidateByHost] using h
  | cons ep rest ih =>
    intro acc h
    by_cases hmem : acc.any (fun e => e.Host == ep.Host) = true
    · simpa [consolidateByHost, hmem] using ih acc h
    · have hext : ∀ e ∈ acc ++ [(⟨ep.Host, []⟩ : Endpoint)],
          e.Path = [] := by
        intro e he
        rcases List.mem_append.mp he with h1 | h1
        · exact h e h1
        · simp at h1; simp [h1]
      simpa [consolidateByHost, hmem] using
        ih (acc ++ [(⟨ep.Host, []⟩ : Endpoint)]) hext

/-- The hosts after consolidation are exactly the accumulated hosts plus
the hosts of the remaining endpoints. -/
theorem consolidateByHost_hosts (eps : List Endpoint) :
    ∀ (acc : List Endpoint) (h : Str),
      h ∈ (consolidateByHost eps acc).map (fun e => e.Host) ↔
        h ∈ acc.map (fun e => e.Host) ∨ h ∈ eps.map (fun e => e.Host) := by
  induction eps with
  | nil => intro acc h; simp [consolidateByHost]
  | cons ep rest ih =>
    intro acc h
    by_cases hmem : acc.any (fun e => e.Host == ep.Host) = true
    · have hin : ep.Host ∈ acc.map (fun e => e.Host) := by
        rcases List.any_eq_true.mp hmem with ⟨e, he, heq⟩
        exact List.mem_map.mpr ⟨e, he, beq_iff_eq.mp heq⟩
      rw [show consolidateByHost (ep :: rest) acc = consolidateByHost rest acc by
        simp [consolidateByHost, hmem]]
      rw [ih acc h]
      simp only [List.map_cons, List.mem_cons]
      constructor
      · rintro (hacc | hrest)
        · exact Or.inl hacc
        · exact Or.inr (Or.inr hrest)
      · rintro (hacc | heq | hrest)
        · exact Or.inl hacc
        · exact Or.inl (heq ▸ hin)
        · exact Or.inr hrest
    · rw [show consolidateByHost (ep :: rest) acc =
          consolidateByHost rest (acc ++ [(⟨ep.Host, []⟩ : Endpoint)]) by
        simp [consolidateByHost, hmem]]
      rw [ih (acc ++ [(⟨ep.Host, []⟩ : Endpoint)]) h]
      simp only [List.map_append, List.map_cons, List.mem_append, List.mem_cons,
        List.map_nil, List.mem_singleton]
      tauto

/-- C1: after host-level consolidation, DiscoverEndpoints yields one
entry per distinct discovered host, named after the host, with an empty
path, and the resulting ResourceMapping names are distinct. -/
theorem discover_one_mapping_per_host (servers : List (Str × List Route))
    (caddyAddress : Str) :
    ((DiscoverEndpoints servers).map (fun e => e.Host)).Nodup
    ∧ (∀ e ∈ DiscoverEndpoints servers, e.Path = [])
    ∧ (∀ h : Str, h ∈ (DiscoverEndpoints servers).map (fun e => e.Host) ↔
        h ∈ (collectEndpoints servers).map (fun e => e.Host))
    ∧ ((DiscoverEndpoints servers).map
        (fun e => (ToResourceMapping e caddyAddress).Name)).Nodup := by
  refine ⟨consolidateByHost_nodup _ [] (by simp),
    consolidateByHost_paths _ [] (by simp), ?_, ?_⟩
  · intro h
    simpa using consolidateByHost_hosts (collectEndpoints servers) [] h
  · exact consolidateByHost_nodup _ [] (by simp)

/-- Witness for C1: in the example tree, the host reached through two
distinct paths appears among the consolidated hosts. -/
theorem discover_one_mapping_per_host_witness :
    "api.example.com".data ∈ (DiscoverEndpoints exServers).map (fun e => e.Host) :=
  ((discover_one_mapping_per_host exServers []).2.2.1 _).mpr (by decide)

/-- traverseRawRoute agrees with traverseRoute applied to the route that
json.Unmarshal produces from the JSON route value (a failed unmarshal
skips the route), justifying the inlined definition. -/
theorem traverseRawRoute_eq_decode (r : RawRoute) (ctx : RouteContext)
    (m : EndpointMap) :
    traverseRawRoute r ctx m =
      match decodeRawRoute r with
      | some route => traverseRoute route ctx m
      | none => m := by
  cases r with
  | mk msetsRaw handlersRaw =>
    cases h : handlersRaw.isEmpty <;>
      simp [traverseRawRoute, decodeRawRoute, traverseRoute, traverseHandlers,
        mergeMatchers, h]
  | rawRouteUndecodable => rfl

/-- C9 (failing input): for the subroute handler holding one route with a
host matcher and a proxy leaf, both representations classify as the
nested-subroute kind, but the pre-decoded traversal applies the nested
host matcher and emits that host, while the key-tagged raw traversal
re-decodes the route with its decoded matcher sets left empty (JSON dash
tag), drops the matcher, and emits the localhost fallback: the endpoint
sets differ. -/
theorem raw_typed_divergence_cex :
    rawHandlerKind (encodeHandler exHandler) = handlerKind exHandler
    ∧ traverseHandler exHandler { Hosts := [], Path := [] } []
      = [{ Host := "a.example".data, Path := [] }]
    ∧ traverseHandlerRaw (encodeHandler exHandler) { Hosts := [], Path := [] } []
      = [{ Host := "localhost".data, Path := [] }]
    ∧ traverseHandlerRaw (encodeHandler exHandler) { Hosts := [], Path := [] } []
      ≠ traverseHandler exHandler { Hosts := [], Path := [] } [] := by
  refine ⟨by decide, by decide, by decide, by decide⟩


end Twingate
